import Mathlib

/-!
Verification development for a user-account and scan-history service
(an Express/Mongoose controller).  The data model and the operations are
shallowly embedded: a Mongo collection is a `List` of documents, a Mongo
aggregation pipeline is a pure function on such lists, timestamps are
natural numbers counting milliseconds of local time since an epoch that
falls on a local midnight, and identifiers are natural numbers.
-/

/-- One entry of `User.history`: in the source an embedded document
`{ product, date_scan, owner }` pushed by `addProductInHistory`. -/
structure ScanEvent where
  product : Nat
  date_scan : Nat
  owner : Bool
deriving DecidableEq, Repr

/-- A document of the `product` collection, the `$lookup` target.  Only its
`_id` takes part in the joins; the descriptive attributes are summarised by
one field. -/
structure Product where
  _id : Nat
  name : String
deriving DecidableEq, Repr

/-- A document of the `User` collection, following the fields the
controller touches: profile fields, role tags, the stored password hash,
the scan counter and the embedded scan history. -/
structure User where
  _id : Nat
  fullname : String
  mail : String
  password : String
  timezone : String
  registration_date : Nat
  roles : List String
  number_scan : Nat
  history : List ScanEvent
deriving DecidableEq, Repr

/-- Milliseconds of one local day; the model's clock counts local
milliseconds from an epoch aligned with a local midnight. -/
def msPerDay : Nat := 86400000

/-- Insert `a` into `l` keeping `l` ordered by the key `k` (ascending);
this realises one concrete, stable order for Mongo's `$sort`, whose order
between equal keys is unspecified. -/
def insertLe (k : α → Nat) (a : α) : List α → List α
  | [] => [a]
  | b :: bs => if k a ≤ k b then a :: b :: bs else b :: insertLe k a bs

/-- Insertion sort by the key `k`, ascending: the model of
`$sort: \x7b 'history.date_scan': 1 \x7d`. -/
def sortByKey (k : α → Nat) : List α → List α
  | [] => []
  | a :: as => insertLe k a (sortByKey k as)

/-- Mongo's `$unwind: '$history'` over a list of users: one row per scan
event, each row keeping its owning document.  A user with an empty
`history` contributes no row (the `$unwind` default). -/
def unwindHistory (db : List User) : List (User × ScanEvent) :=
  db.flatMap (fun u => u.history.map (fun e => (u, e)))

/-- One element of the first aggregation's output:
`$project \x7b history: \x7b $slice: [..., -1] \x7d, number_scan: 1 \x7d`
keeps `_id` and `number_scan` and the sliced history, and the following
`$lookup` attaches `productInfo`. -/
structure StatRow where
  _id : Nat
  number_scan : Nat
  history : List ScanEvent
  productInfo : List Product
deriving DecidableEq, Repr

/-- First pipeline of `getStatsAndLastProduct`:
`$match \x7b _id: userId \x7d`, `$unwind '$history'`,
`$sort \x7b 'history.date_scan': 1 \x7d`,
`$group` by `'$_id'` with `$first: '$number_scan'` and a `$push` of the
events, `$project` with `$slice: [..., -1]`, and a `$lookup` of the sliced
history's product references against the `product` collection.
Since `$match` fixes `_id` and `_id` is unique in a Mongo collection, every
surviving row carries the same group key, so the `$group` stage produces
one output document when any row survives and none otherwise. -/
def lastScanBranch (db : List User) (products : List Product) (userId : Nat) :
    List StatRow :=
  let rows := unwindHistory (db.filter (fun u => u._id == userId))
  let sorted := sortByKey (fun r => r.2.date_scan) rows
  match sorted with
  | [] => []
  | r :: _ =>
    let events := sorted.map (fun r => r.2)
    let hist := events.drop (events.length - 1)
    [{ _id := r.1._id, number_scan := r.1.number_scan, history := hist,
       productInfo :=
         products.filter (fun p => (hist.map (fun e => e.product)).contains p._id) }]

/-- Lower bound used by the second pipeline:
`new Date(new Date().setHours(00, 00, 00))`.  JavaScript's
`setHours(h, m, s)` leaves the millisecond field of the date unchanged, so
the bound is the local midnight of `now`'s day plus `now`'s
millisecond-of-second. -/
def todayLowerBound (now : Nat) : Nat :=
  now - now % msPerDay + now % 1000

/-- Upper bound used by the second pipeline:
`new Date(new Date().setHours(23, 59, 59))`, i.e. local 23:59:59 of `now`'s
day plus `now`'s millisecond-of-second; the pipeline compares with `$lt`. -/
def todayUpperBound (now : Nat) : Nat :=
  now - now % msPerDay + 86399000 + now % 1000

/-- Test applied to an unwound row by the second pipeline's
`$match \x7b _id: userId, 'history.date_scan': \x7b $gte: ..., $lt: ... \x7d \x7d`. -/
def todayMatch (userId : Nat) (now : Nat) (r : User × ScanEvent) : Bool :=
  r.1._id == userId &&
    (todayLowerBound now ≤ r.2.date_scan && r.2.date_scan < todayUpperBound now)

/-- Second pipeline of `getStatsAndLastProduct`: `$unwind '$history'` over
the whole collection, the `$match` above, then `$count: 'total_today'`;
`$count` emits no document when its input is empty. -/
def todayBranch (db : List User) (userId : Nat) (now : Nat) : List Nat :=
  let matched := (unwindHistory db).filter (todayMatch userId now)
  match matched.length with
  | 0 => []
  | n + 1 => [n + 1]

/-- One element of the merged response of `getStatsAndLastProduct`:
either the last-scan row or the `\x7b total_today: N \x7d` document. -/
inductive StatsItem where
  | lastScan (row : StatRow)
  | todayCount (total_today : Nat)
deriving DecidableEq, Repr

/-- The handler `getStatsAndLastProduct`: runs the two pipelines and
answers 200 with `dataHistory.concat(userStatsNow)`. -/
def getStatsAndLastProduct (db : List User) (products : List Product)
    (userId : Nat) (now : Nat) : Nat × List StatsItem :=
  (200,
    (lastScanBranch db products userId).map StatsItem.lastScan ++
      (todayBranch db userId now).map StatsItem.todayCount)

/-- Mongo's `updateOne` filtered on `_id`: applies the update `f` to the
first document whose `_id` matches and leaves the rest alone; when no
document matches, the operation matches zero documents and still resolves
successfully. -/
def updateOneById (db : List User) (userId : Nat) (f : User → User) : List User :=
  match db with
  | [] => []
  | u :: rest =>
    if u._id == userId then f u :: rest else u :: updateOneById rest userId f

/-- The update document of `addProductInHistory`: a `$push` of
`{ product: idProduct, date_scan: new Date(), owner: false }` onto
`history` together with `$inc: { number_scan: 1 }`, in one update. -/
def appendScan (productId : Nat) (now : Nat) (u : User) : User :=
  { u with
    history := u.history ++ [{ product := productId, date_scan := now, owner := false }],
    number_scan := u.number_scan + 1 }

/-- The handler `addProductInHistory`: issues the `updateOne` above and
answers 201 with the success message when the promise resolves; the 400
branch fires only when the store call itself rejects, which the pure model
of a resolving store cannot produce. -/
def addProductInHistory (db : List User) (userId : Nat) (productId : Nat)
    (now : Nat) : Nat × List User :=
  (201, updateOneById db userId (appendScan productId now))

/-- The projection served by the profile read:
`{ fullname: 1, mail: 1, timezone: 1, number_scan: 1, registration_date: 1 }`
(Mongo includes `_id` in a projection by default). -/
structure Profile where
  _id : Nat
  fullname : String
  mail : String
  timezone : String
  number_scan : Nat
  registration_date : Nat
deriving DecidableEq, Repr

/-- Projection of a user document onto the profile fields. -/
def profileOf (u : User) : Profile :=
  { _id := u._id, fullname := u.fullname, mail := u.mail, timezone := u.timezone,
    number_scan := u.number_scan, registration_date := u.registration_date }

/-- The handler `getInformationOfUser`: a `findOne` on `_id` with the
profile projection.  A `findOne` that matches no document resolves with
`null`, so the `then` branch still answers 200, with a null body; the 404
branch fires only when the query itself rejects. -/
def getInformationOfUser (db : List User) (userId : Nat) : Nat × Option Profile :=
  match db.find? (fun u => u._id == userId) with
  | some u => (200, some (profileOf u))
  | none => (200, none)

/-- The request body of the profile edit: each profile field optionally
present, plus an optional `_id` the client may try to smuggle in. -/
structure EditBody where
  _id : Option Nat
  fullname : Option String
  mail : Option String
  password : Option String
  timezone : Option String
  registration_date : Option Nat
  roles : Option (List String)
  number_scan : Option Nat
deriving DecidableEq, Repr

/-- The update document of `editInformationOfUser`:
`{ ...req.body, _id: req.params.id }` — every field present in the body
overwrites the stored one (Mongoose wraps the plain object in `$set`), and
the trailing `_id: req.params.id` overwrites any `_id` the body carried. -/
def applyEdit (b : EditBody) (pathId : Nat) (u : User) : User :=
  { u with
    _id := pathId,
    fullname := b.fullname.getD u.fullname,
    mail := b.mail.getD u.mail,
    password := b.password.getD u.password,
    timezone := b.timezone.getD u.timezone,
    registration_date := b.registration_date.getD u.registration_date,
    roles := b.roles.getD u.roles,
    number_scan := b.number_scan.getD u.number_scan }

/-- The handler `editInformationOfUser`: `updateOne` on `_id` with the
update above, answering 200 on resolution. -/
def editInformationOfUser (db : List User) (pathId : Nat) (b : EditBody) :
    Nat × List User :=
  (200, updateOneById db pathId (applyEdit b pathId))

/-- The value stored into `req.session.user` on a successful login. -/
structure SessionUser where
  userId : Nat
  mail : String
  roles : List String
deriving DecidableEq, Repr

/-- The body of a login response: the status code, and on success the
`user` payload `{ userId: user._id, role: user.roles }` — built from the
identifier and the roles only, never from the stored password hash. -/
structure LoginResponse where
  status : Nat
  user : Option (Nat × List String)
deriving DecidableEq, Repr

/-- The handler `login`: `findOne` on `mail`; a missing user answers 401,
then `bcrypt.compare` (abstracted by `verify`) gates between the 401
wrong-password answer and the 200 answer; `req.session.user` is assigned
only on the 200 path, immediately before the response. -/
def login (verify : String → String → Bool) (db : List User)
    (sess : Option SessionUser) (mail password : String) :
    LoginResponse × Option SessionUser :=
  match db.find? (fun u => u.mail == mail) with
  | none => ({ status := 401, user := none }, sess)
  | some u =>
    if verify password u.password then
      ({ status := 200, user := some (u._id, u.roles) },
        some { userId := u._id, mail := u.mail, roles := u.roles })
    else
      ({ status := 401, user := none }, sess)

/-- The per-event half of the second pipeline's `$match`, as a predicate on
one scan event. -/
def todayWindow (now : Nat) (e : ScanEvent) : Bool :=
  decide (todayLowerBound now ≤ e.date_scan) &&
    decide (e.date_scan < todayUpperBound now)

theorem insertLe_ne_nil (k : α → Nat) (a : α) (l : List α) : insertLe k a l ≠ [] := by
  cases l with
  | nil => simp [insertLe]
  | cons b bs =>
    simp only [insertLe]
    split <;> simp

theorem mem_insertLe {k : α → Nat} {a x : α} {l : List α} :
    x ∈ insertLe k a l ↔ x = a ∨ x ∈ l := by
  induction l with
  | nil => simp [insertLe]
  | cons b bs ih =>
    simp only [insertLe]
    split
    · simp [List.mem_cons]
    · simp only [List.mem_cons, ih]
      tauto

theorem mem_sortByKey {k : α → Nat} {x : α} {l : List α} :
    x ∈ sortByKey k l ↔ x ∈ l := by
  induction l with
  | nil => simp [sortByKey]
  | cons a as ih => simp [sortByKey, mem_insertLe, ih]

theorem sortByKey_eq_nil_iff {k : α → Nat} {l : List α} :
    sortByKey k l = [] ↔ l = [] := by
  cases l with
  | nil => simp [sortByKey]
  | cons a as => simp [sortByKey, insertLe_ne_nil]

theorem pairwise_insertLe {k : α → Nat} {a : α} {l : List α}
    (h : l.Pairwise (fun x y => k x ≤ k y)) :
    (insertLe k a l).Pairwise (fun x y => k x ≤ k y) := by
  induction l with
  | nil => simp [insertLe]
  | cons b bs ih =>
    rcases List.pairwise_cons.mp h with ⟨hb, hbs⟩
    simp only [insertLe]
    split
    case isTrue hab =>
      refine List.pairwise_cons.mpr ⟨?_, h⟩
      intro y hy
      rcases List.mem_cons.mp hy with rfl | hy
      · exact hab
      · exact le_trans hab (hb y hy)
    case isFalse hab =>
      refine List.pairwise_cons.mpr ⟨?_, ih hbs⟩
      intro y hy
      rcases mem_insertLe.mp hy with rfl | hy
      · exact le_of_not_le hab
      · exact hb y hy

theorem pairwise_sortByKey (k : α → Nat) (l : List α) :
    (sortByKey k l).Pairwise (fun x y => k x ≤ k y) := by
  induction l with
  | nil => simp [sortByKey]
  | cons a as ih =>
    simp only [sortByKey]
    exact pairwise_insertLe ih

theorem le_k_getLast {k : α → Nat} :
    ∀ {l : List α}, l.Pairwise (fun x y => k x ≤ k y) → (hne : l ≠ []) →
      ∀ x ∈ l, k x ≤ k (l.getLast hne)
  | [], _, hne, _, _ => absurd rfl hne
  | [a], _, _, x, hx => by
    rcases List.mem_singleton.mp hx with rfl
    simp
  | a :: b :: bs, h, _, x, hx => by
    rcases List.pairwise_cons.mp h with ⟨ha, htail⟩
    rw [List.getLast_cons (List.cons_ne_nil b bs)]
    rcases List.mem_cons.mp hx with rfl | hx
    · exact le_trans (ha _ (List.getLast_mem (List.cons_ne_nil b bs)))
        (le_refl _)
    · exact le_k_getLast htail (List.cons_ne_nil b bs) x hx

theorem drop_length_sub_one :
    ∀ {l : List α} (hne : l ≠ []), l.drop (l.length - 1) = [l.getLast hne]
  | [], hne => absurd rfl hne
  | [a], _ => rfl
  | a :: b :: bs, _ => by
    rw [List.getLast_cons (List.cons_ne_nil b bs)]
    have : (a :: b :: bs).length - 1 = (b :: bs).length := rfl
    rw [this, List.length_cons, List.drop_succ_cons]
    exact drop_length_sub_one (List.cons_ne_nil b bs)

theorem mem_unwindHistory {db : List User} {r : User × ScanEvent} :
    r ∈ unwindHistory db ↔ r.1 ∈ db ∧ r.2 ∈ r.1.history := by
  simp only [unwindHistory, List.mem_flatMap, List.mem_map]
  constructor
  · rintro ⟨u, hu, e, he, rfl⟩
    exact ⟨hu, he⟩
  · rintro ⟨h1, h2⟩
    exact ⟨r.1, h1, r.2, h2, rfl⟩

theorem unwindHistory_cons (u : User) (db : List User) :
    unwindHistory (u :: db) =
      u.history.map (fun e => (u, e)) ++ unwindHistory db := by
  simp [unwindHistory]

theorem unwindHistory_singleton (u : User) :
    unwindHistory [u] = u.history.map (fun e => (u, e)) := by
  simp [unwindHistory]

theorem todayMatch_of_id {userId : Nat} {u : User} (now : Nat)
    (hid : (u._id == userId) = true) (e : ScanEvent) :
    todayMatch userId now (u, e) = todayWindow now e := by
  simp [todayMatch, todayWindow, hid]

theorem todayMatch_of_ne_id {userId : Nat} {u : User} (now : Nat)
    (hid : ¬(u._id == userId) = true) (e : ScanEvent) :
    todayMatch userId now (u, e) = false := by
  simp [todayMatch, hid]

theorem unwind_filter_today_nil {userId : Nat} (now : Nat) {db : List User}
    (h : db.filter (fun v => v._id == userId) = []) :
    (unwindHistory db).filter (todayMatch userId now) = [] := by
  rw [List.filter_eq_nil_iff] at h ⊢
  intro r hr
  have h1 := (mem_unwindHistory.mp hr).1
  have h2 := h r.1 h1
  simp only [todayMatch, Bool.and_eq_true, decide_eq_true_eq]
  intro hcon
  exact h2 hcon.1

theorem unwind_filter_today {userId : Nat} {u : User} (now : Nat) :
    ∀ {db : List User}, db.filter (fun v => v._id == userId) = [u] →
      (unwindHistory db).filter (todayMatch userId now) =
        (u.history.filter (todayWindow now)).map (fun e => (u, e)) := by
  intro db
  induction db with
  | nil => intro h; simp at h
  | cons v rest ih =>
    intro h
    rw [List.filter_cons] at h
    rw [unwindHistory_cons, List.filter_append]
    by_cases hid : (v._id == userId) = true
    · rw [if_pos hid] at h
      have hv : v = u := (List.cons_eq_cons.mp h).1
      have hrest : rest.filter (fun v => v._id == userId) = [] :=
        (List.cons_eq_cons.mp h).2
      subst hv
      rw [unwind_filter_today_nil now hrest, List.append_nil]
      rw [List.filter_map]
      have : (todayMatch userId now ∘ fun e => (v, e)) = todayWindow now := by
        funext e
        exact todayMatch_of_id now hid e
      rw [this]
    · rw [if_neg hid] at h
      rw [ih h]
      have hv : (v.history.map fun e => (v, e)).filter (todayMatch userId now) = [] := by
        rw [List.filter_eq_nil_iff]
        intro r hr
        rcases List.mem_map.mp hr with ⟨e, _, rfl⟩
        simp [todayMatch_of_ne_id now hid e]
      rw [hv, List.nil_append]

theorem todayBranch_count {db : List User} {userId : Nat} {u : User} (now : Nat)
    (hu : db.filter (fun v => v._id == userId) = [u]) :
    todayBranch db userId now =
      if (u.history.filter (todayWindow now)).length = 0 then []
      else [(u.history.filter (todayWindow now)).length] := by
  unfold todayBranch
  rw [unwind_filter_today now hu]
  simp only [List.length_map]
  cases hn : (u.history.filter (todayWindow now)).length with
  | zero => simp
  | succ n => simp

theorem drop_last_spec {k : α → Nat} {l : List α}
    (h : l.Pairwise (fun x y => k x ≤ k y)) (hne : l ≠ []) :
    ∃ a, l.drop (l.length - 1) = [a] ∧ a ∈ l ∧ ∀ x ∈ l, k x ≤ k a :=
  ⟨l.getLast hne, drop_length_sub_one hne, List.getLast_mem hne,
    le_k_getLast h hne⟩

theorem lastScanBranch_nil {db : List User} {products : List Product}
    {userId : Nat} (hu : db.filter (fun v => v._id == userId) = []) :
    lastScanBranch db products userId = [] := by
  unfold lastScanBranch
  rw [hu]
  rfl

theorem lastScanBranch_empty_history {db : List User} {products : List Product}
    {userId : Nat} {u : User} (hu : db.filter (fun v => v._id == userId) = [u])
    (hh : u.history = []) :
    lastScanBranch db products userId = [] := by
  unfold lastScanBranch
  rw [hu, unwindHistory_singleton, hh]
  rfl

theorem lastScanBranch_cons (products : List Product) {db : List User}
    {userId : Nat} {u : User} {r : User × ScanEvent}
    {rest : List (User × ScanEvent)}
    (hu : db.filter (fun v => v._id == userId) = [u])
    (hs : sortByKey (fun x : User × ScanEvent => x.2.date_scan)
        (u.history.map (fun e => (u, e))) = r :: rest) :
    lastScanBranch db products userId =
      [{ _id := r.1._id, number_scan := r.1.number_scan,
         history := ((r :: rest).map (fun x => x.2)).drop
           (((r :: rest).map (fun x => x.2)).length - 1),
         productInfo := products.filter (fun p =>
           ((((r :: rest).map (fun x => x.2)).drop
             (((r :: rest).map (fun x => x.2)).length - 1)).map
               (fun e => e.product)).contains p._id) }] := by
  simp only [lastScanBranch]
  rw [hu, unwindHistory_singleton, hs]

/-- C1: for a user whose history is non-empty (`u` being the sole document
matching `userId`), the first element of the merged response of
`getStatsAndLastProduct` is a last-scan row whose `history` holds exactly
one event, that event belongs to the user's history, and its `date_scan`
is maximal among the user's scan events. -/
theorem getStats_first_is_max_scan (db : List User) (products : List Product)
    (userId : Nat) (u : User) (now : Nat)
    (hu : db.filter (fun v => v._id == userId) = [u])
    (hne : u.history ≠ []) :
    ∃ row e, ((getStatsAndLastProduct db products userId now).2).head? =
        some (StatsItem.lastScan row) ∧ row.history = [e] ∧ e ∈ u.history ∧
        ∀ e2 ∈ u.history, e2.date_scan ≤ e.date_scan := by
  have hrows : u.history.map (fun e => (u, e)) ≠ [] := by
    simpa using hne
  have hsne : sortByKey (fun x : User × ScanEvent => x.2.date_scan)
      (u.history.map (fun e => (u, e))) ≠ [] := by
    rw [Ne, sortByKey_eq_nil_iff]
    exact hrows
  obtain ⟨r, rest, hs⟩ := List.exists_cons_of_ne_nil hsne
  obtain ⟨a, hda, hma, hmax⟩ :=
    drop_last_spec (pairwise_sortByKey (fun x : User × ScanEvent => x.2.date_scan)
      (u.history.map (fun e => (u, e)))) hsne
  obtain ⟨emax, hemem, hea⟩ := List.mem_map.mp (mem_sortByKey.mp hma)
  have hbranch := lastScanBranch_cons products hu hs
  rw [← hs] at hbranch
  have hmapdrop : ((sortByKey (fun x : User × ScanEvent => x.2.date_scan)
        (u.history.map (fun e => (u, e)))).map (fun x => x.2)).drop
      (((sortByKey (fun x : User × ScanEvent => x.2.date_scan)
        (u.history.map (fun e => (u, e)))).map (fun x => x.2)).length - 1) =
      [a.2] := by
    rw [List.length_map, ← List.map_drop, hda]
    rfl
  rw [hmapdrop] at hbranch
  refine ⟨{ _id := r.1._id, number_scan := r.1.number_scan, history := [a.2],
            productInfo := products.filter
              (fun p => (List.map (fun e => e.product) [a.2]).contains p._id) },
    a.2, ?_, rfl, ?_, ?_⟩
  · unfold getStatsAndLastProduct
    rw [hbranch]
    rfl
  · rw [← hea]
    exact hemem
  · intro e2 he2
    have hmem2 : (u, e2) ∈ sortByKey (fun x : User × ScanEvent => x.2.date_scan)
        (u.history.map (fun e => (u, e))) :=
      mem_sortByKey.mpr (List.mem_map.mpr ⟨e2, he2, rfl⟩)
    exact hmax (u, e2) hmem2

/-- C1 witness: a concrete database with one three-event history; the
returned row holds the event with the greatest timestamp. -/
theorem getStats_first_is_max_scan_witness :
    ∃ row e, ((getStatsAndLastProduct
        [{ _id := 7, fullname := "A", mail := "a@b.c", password := "h",
           timezone := "UTC", registration_date := 0, roles := ["admin"],
           number_scan := 3,
           history := [{ product := 10, date_scan := 100, owner := false },
             { product := 11, date_scan := 300, owner := false },
             { product := 12, date_scan := 200, owner := false }] }]
        [{ _id := 11, name := "X" }] 7 350).2).head? =
        some (StatsItem.lastScan row) ∧ row.history = [e] ∧
      e ∈ [{ product := 10, date_scan := 100, owner := false },
             { product := 11, date_scan := 300, owner := false },
             { product := 12, date_scan := 200, owner := false }] ∧
      ∀ e2 ∈ [({ product := 10, date_scan := 100, owner := false } : ScanEvent),
             { product := 11, date_scan := 300, owner := false },
             { product := 12, date_scan := 200, owner := false }],
        e2.date_scan ≤ e.date_scan :=
  getStats_first_is_max_scan _ _ 7
    { _id := 7, fullname := "A", mail := "a@b.c", password := "h",
      timezone := "UTC", registration_date := 0, roles := ["admin"],
      number_scan := 3,
      history := [{ product := 10, date_scan := 100, owner := false },
        { product := 11, date_scan := 300, owner := false },
        { product := 12, date_scan := 200, owner := false }] }
    350 (by decide) (by decide)

/-- C6: when no document matches the requested user id, the merged
response of `getStatsAndLastProduct` is the empty list, served with the
200 success status. -/
theorem getStats_unknown_user (db : List User) (products : List Product)
    (userId : Nat) (now : Nat)
    (hu : db.filter (fun v => v._id == userId) = []) :
    getStatsAndLastProduct db products userId now = (200, []) := by
  unfold getStatsAndLastProduct
  rw [lastScanBranch_nil hu]
  unfold todayBranch
  rw [unwind_filter_today_nil now hu]
  rfl

/-- C6 witness: the stats query on an empty collection answers 200 with an
empty data set. -/
theorem getStats_unknown_user_witness :
    getStatsAndLastProduct [] [] 5 1000 = (200, []) :=
  getStats_unknown_user [] [] 5 1000 rfl

/-- C7: for a user whose history is empty (`u` being the sole document
matching `userId`), the merged response of `getStatsAndLastProduct`
contains no last-scan element and no today-count element at all. -/
theorem getStats_empty_history (db : List User) (products : List Product)
    (userId : Nat) (u : User) (now : Nat)
    (hu : db.filter (fun v => v._id == userId) = [u])
    (hh : u.history = []) :
    getStatsAndLastProduct db products userId now = (200, []) := by
  unfold getStatsAndLastProduct
  rw [lastScanBranch_empty_history hu hh, todayBranch_count now hu, hh]
  simp

/-- Modelled from the claim's words only, for comparison with the code's
filter: the closed interval from local midnight 00:00:00 to local
23:59:59 of the execution day. -/
def specTodayWindow (now t : Nat) : Bool :=
  decide (now - now % msPerDay ≤ t) &&
    decide (t ≤ now - now % msPerDay + 86399000)

/-- C2 counterexample: at the execution instant `now = 0` (midnight sharp)
an event at exactly 23:59:59.000 of that day lies inside the claim's
closed interval, yet the merged response carries no `total_today` entry at
all — the pipeline's strict `$lt` upper bound excludes the event, so the
count is zero where the claim demands one. -/
theorem total_today_boundary_counterexample :
    specTodayWindow 0 86399000 = true ∧
    getStatsAndLastProduct
      [{ _id := 7, fullname := "A", mail := "a@b.c", password := "h",
         timezone := "UTC", registration_date := 0, roles := ["admin"],
         number_scan := 1,
         history := [{ product := 1, date_scan := 86399000, owner := false }] }]
      [] 7 0 =
      (200, [StatsItem.lastScan
        { _id := 7, number_scan := 1,
          history := [{ product := 1, date_scan := 86399000, owner := false }],
          productInfo := [] }]) := by
  decide

/-- C2 amended: a `total_today` entry with value `n` appears in the merged
response exactly when `n` is the number of the user's events whose
`date_scan` lies in the half-open interval from local midnight plus the
execution instant's millisecond-of-second (inclusive) to local 23:59:59
plus that same millisecond offset (exclusive), and that number is not
zero; the entry is absent when the count is zero. -/
theorem total_today_counts_code_window (db : List User)
    (products : List Product) (userId : Nat) (u : User) (now : Nat)
    (hu : db.filter (fun v => v._id == userId) = [u]) (n : Nat) :
    StatsItem.todayCount n ∈ (getStatsAndLastProduct db products userId now).2 ↔
      n = (u.history.filter (todayWindow now)).length ∧
        (u.history.filter (todayWindow now)).length ≠ 0 := by
  unfold getStatsAndLastProduct
  rw [todayBranch_count now hu]
  by_cases h0 : (u.history.filter (todayWindow now)).length = 0
  · rw [if_pos h0]
    simp only [List.map_nil, List.append_nil, List.mem_map]
    constructor
    · rintro ⟨row, _, h⟩
      cases h
    · rintro ⟨rfl, hne⟩
      exact absurd h0 hne
  · rw [if_neg h0]
    simp only [List.map_cons, List.map_nil, List.mem_append, List.mem_map,
      List.mem_singleton]
    constructor
    · rintro (⟨row, _, h⟩ | h)
      · cases h
      · refine ⟨?_, h0⟩
        cases h
        rfl
    · rintro ⟨rfl, _⟩
      exact Or.inr rfl

/-- C2 amended witness: at midnight sharp all three of the user's events
of that day are counted, and the response indeed carries
`total_today = 3`. -/
theorem total_today_counts_code_window_witness :
    StatsItem.todayCount 3 ∈ (getStatsAndLastProduct
      [{ _id := 7, fullname := "A", mail := "a@b.c", password := "h",
         timezone := "UTC", registration_date := 0, roles := ["admin"],
         number_scan := 3,
         history := [{ product := 10, date_scan := 100, owner := false },
           { product := 11, date_scan := 300, owner := false },
           { product := 12, date_scan := 200, owner := false }] }] [] 7 0).2 ↔
      3 = (List.filter (todayWindow 0)
          [{ product := 10, date_scan := 100, owner := false },
           { product := 11, date_scan := 300, owner := false },
           ({ product := 12, date_scan := 200, owner := false } : ScanEvent)]).length ∧
        (List.filter (todayWindow 0)
          [{ product := 10, date_scan := 100, owner := false },
           { product := 11, date_scan := 300, owner := false },
           ({ product := 12, date_scan := 200, owner := false } : ScanEvent)]).length ≠ 0 :=
  total_today_counts_code_window _ [] 7
    { _id := 7, fullname := "A", mail := "a@b.c", password := "h",
      timezone := "UTC", registration_date := 0, roles := ["admin"],
      number_scan := 3,
      history := [{ product := 10, date_scan := 100, owner := false },
        { product := 11, date_scan := 300, owner := false },
        { product := 12, date_scan := 200, owner := false }] }
    0 (by decide) 3

/-- Sequential execution of `addProductInHistory` for one product/instant
pair after another, as the repeated-append property quantifies over. -/
def appendMany (db : List User) (userId : Nat) : List (Nat × Nat) → List User
  | [] => db
  | (pid, t) :: ps => appendMany (addProductInHistory db userId pid t).2 userId ps

theorem filter_updateOneById {userId : Nat} {u : User} (f : User → User)
    (hf : (f u)._id = u._id) :
    ∀ {db : List User}, db.filter (fun v => v._id == userId) = [u] →
      (updateOneById db userId f).filter (fun v => v._id == userId) = [f u] := by
  intro db
  induction db with
  | nil => intro h; simp at h
  | cons v rest ih =>
    intro h
    rw [List.filter_cons] at h
    by_cases hid : (v._id == userId) = true
    · rw [if_pos hid] at h
      obtain ⟨hv, hrest⟩ := List.cons_eq_cons.mp h
      subst hv
      unfold updateOneById
      rw [if_pos hid, List.filter_cons]
      have hfid : ((f v)._id == userId) = true := by
        rw [hf]
        exact hid
      rw [if_pos hfid, hrest]
    · rw [if_neg hid] at h
      unfold updateOneById
      rw [if_neg hid, List.filter_cons, if_neg hid]
      exact ih h

theorem updateOneById_no_match {userId : Nat} {f : User → User} :
    ∀ {db : List User}, db.filter (fun v => v._id == userId) = [] →
      updateOneById db userId f = db := by
  intro db
  induction db with
  | nil => intro _; rfl
  | cons v rest ih =>
    intro h
    rw [List.filter_cons] at h
    by_cases hid : (v._id == userId) = true
    · rw [if_pos hid] at h
      cases h
    · rw [if_neg hid] at h
      unfold updateOneById
      rw [if_neg hid, ih h]

theorem mem_updateOneById {userId : Nat} {f : User → User} :
    ∀ {db : List User} {v : User}, v ∈ updateOneById db userId f →
      v ∈ db ∨ ∃ w, w ∈ db ∧ v = f w := by
  intro db
  induction db with
  | nil => intro v hv; simp [updateOneById] at hv
  | cons w rest ih =>
    intro v hv
    unfold updateOneById at hv
    by_cases hid : (w._id == userId) = true
    · rw [if_pos hid] at hv
      rcases List.mem_cons.mp hv with rfl | hv
      · exact Or.inr ⟨w, List.mem_cons_self w rest, rfl⟩
      · exact Or.inl (List.mem_cons_of_mem w hv)
    · rw [if_neg hid] at hv
      rcases List.mem_cons.mp hv with rfl | hv
      · exact Or.inl (List.mem_cons_self _ _)
      · rcases ih hv with h | ⟨w2, hw2, rfl⟩
        · exact Or.inl (List.mem_cons_of_mem w h)
        · exact Or.inr ⟨w2, List.mem_cons_of_mem w hw2, rfl⟩

theorem appendScan_number_scan (pid t : Nat) (u : User) :
    (appendScan pid t u).number_scan = u.number_scan + 1 := rfl

theorem appendScan_history_length (pid t : Nat) (u : User) :
    (appendScan pid t u).history.length = u.history.length + 1 := by
  show (u.history ++
      [({ product := pid, date_scan := t, owner := false } : ScanEvent)]).length =
    u.history.length + 1
  rw [List.length_append]
  rfl

theorem appendMany_filter {userId : Nat} :
    ∀ (ps : List (Nat × Nat)) (db : List User) (u : User),
      db.filter (fun v => v._id == userId) = [u] →
      ∃ u2, (appendMany db userId ps).filter (fun v => v._id == userId) = [u2] ∧
        u2.number_scan = u.number_scan + ps.length ∧
        u2.history.length = u.history.length + ps.length
  | [], _, u, hu => ⟨u, hu, rfl, rfl⟩
  | (pid, t) :: ps, db, u, hu => by
    have hstep := filter_updateOneById (appendScan pid t) rfl hu
    obtain ⟨u2, h2, hn2, hl2⟩ := appendMany_filter ps _ _ hstep
    refine ⟨u2, h2, ?_, ?_⟩
    · rw [hn2, appendScan_number_scan, List.length_cons]
      omega
    · rw [hl2, appendScan_history_length, List.length_cons]
      omega

/-- C3: the append operation pushes exactly the event
`product = productId, date_scan = now, owner = false` and increments
`number_scan` by one in the same single update; the invariant
`number_scan = history.length` is preserved by every append; and starting
from an empty history, any sequence of `N` appends for the same user
leaves `number_scan = N = history.length`. -/
theorem addProduct_append_and_invariant :
    (∀ (db : List User) (userId productId now : Nat) (u : User),
        db.filter (fun v => v._id == userId) = [u] →
        (addProductInHistory db userId productId now).2.filter
            (fun v => v._id == userId) =
          [{ u with
              history := u.history ++
                [{ product := productId, date_scan := now, owner := false }],
              number_scan := u.number_scan + 1 }]) ∧
    (∀ (db : List User) (userId productId now : Nat),
        (∀ v ∈ db, v.number_scan = v.history.length) →
        ∀ v ∈ (addProductInHistory db userId productId now).2,
          v.number_scan = v.history.length) ∧
    (∀ (db : List User) (userId : Nat) (u : User) (ps : List (Nat × Nat)),
        db.filter (fun v => v._id == userId) = [u] → u.history = [] →
        u.number_scan = 0 →
        ∃ u2, (appendMany db userId ps).filter (fun v => v._id == userId) = [u2] ∧
          u2.number_scan = ps.length ∧ u2.history.length = ps.length) := by
  refine ⟨?_, ?_, ?_⟩
  · intro db userId productId now u hu
    exact filter_updateOneById (appendScan productId now) rfl hu
  · intro db userId productId now hinv v hv
    rcases mem_updateOneById hv with h | ⟨w, hw, rfl⟩
    · exact hinv v h
    · simp only [appendScan, List.length_append, List.length_cons,
        List.length_nil]
      rw [hinv w hw]
  · intro db userId u ps hu hh hn
    obtain ⟨u2, h2, hn2, hl2⟩ := appendMany_filter ps db u hu
    refine ⟨u2, h2, ?_, ?_⟩
    · rw [hn2, hn, Nat.zero_add]
    · rw [hl2, hh, List.length_nil, Nat.zero_add]

/-- C3 witness: two sequential appends onto a fresh user leave
`number_scan = 2 = history.length`. -/
theorem addProduct_append_and_invariant_witness :
    ∃ u2, (appendMany
        [{ _id := 7, fullname := "A", mail := "a@b.c", password := "h",
           timezone := "UTC", registration_date := 0, roles := ["admin"],
           number_scan := 0, history := [] }] 7 [(1, 5), (2, 6)]).filter
        (fun v => v._id == 7) = [u2] ∧
      u2.number_scan = 2 ∧ u2.history.length = 2 :=
  addProduct_append_and_invariant.2.2 _ 7
    { _id := 7, fullname := "A", mail := "a@b.c", password := "h",
      timezone := "UTC", registration_date := 0, roles := ["admin"],
      number_scan := 0, history := [] }
    [(1, 5), (2, 6)] (by decide) rfl rfl

/-- C4 counterexample: an append for a user id that matches no document
still answers the 201 success acknowledgement (Mongo's `updateOne`
resolves with zero matched documents instead of rejecting), not the 400
failure the claim requires. -/
theorem addProduct_missing_user_counterexample :
    addProductInHistory [] 5 1 0 = (201, []) ∧ (201 : Nat) ≠ 400 := by
  decide

/-- C4 amended: when the user id matches no document, the append resolves
as a success — status 201 with the collection unchanged; the 400
`QueryFailed` answer arises only when the store call itself rejects. -/
theorem addProduct_missing_user_success (db : List User)
    (userId productId now : Nat)
    (hu : db.filter (fun v => v._id == userId) = []) :
    addProductInHistory db userId productId now = (201, db) := by
  unfold addProductInHistory
  rw [updateOneById_no_match hu]

/-- C4 amended witness: appending for id 9 against a collection holding
only id 7 answers 201 and leaves the collection as it was. -/
theorem addProduct_missing_user_success_witness :
    addProductInHistory
      [{ _id := 7, fullname := "A", mail := "a@b.c", password := "h",
         timezone := "UTC", registration_date := 0, roles := ["admin"],
         number_scan := 0, history := [] }] 9 1 0 =
      (201,
        [{ _id := 7, fullname := "A", mail := "a@b.c", password := "h",
           timezone := "UTC", registration_date := 0, roles := ["admin"],
           number_scan := 0, history := [] }]) :=
  addProduct_missing_user_success _ 9 1 0 (by decide)

/-- C5 counterexample: the profile read for an id matching no document
answers 200 with a null body — `findOne` resolves `null` rather than
rejecting, so the 404 branch never fires for an absent user. -/
theorem profile_missing_user_counterexample :
    getInformationOfUser [] 5 = (200, none) ∧ (200 : Nat) ≠ 404 := by
  decide

/-- C5 amended: when the profile query matches no document, `findOne`
resolves with null and the handler answers 200 with a null body; the 404
mapping applies only when the query itself rejects. -/
theorem profile_missing_user_amended (db : List User) (userId : Nat)
    (h : db.find? (fun u => u._id == userId) = none) :
    getInformationOfUser db userId = (200, none) := by
  unfold getInformationOfUser
  rw [h]

/-- C5 amended witness: reading id 9 from a collection holding only id 7
answers 200 with a null body. -/
theorem profile_missing_user_amended_witness :
    getInformationOfUser
      [{ _id := 7, fullname := "A", mail := "a@b.c", password := "h",
         timezone := "UTC", registration_date := 0, roles := ["admin"],
         number_scan := 0, history := [] }] 9 = (200, none) :=
  profile_missing_user_amended _ 9 (by decide)

/-- C8: on a mail match with a verifying password the login answers 200
with a payload holding exactly the user's id and roles (the response type
carries no password component at all); on a mail match with a failing
password it answers 401 with no payload; and on an unknown mail it answers
401 with no payload. -/
theorem login_status_and_payload :
    (∀ (verify : String → String → Bool) (db : List User)
        (sess : Option SessionUser) (mail password : String) (u : User),
        db.find? (fun v => v.mail == mail) = some u →
        verify password u.password = true →
        (login verify db sess mail password).1 =
          { status := 200, user := some (u._id, u.roles) }) ∧
    (∀ (verify : String → String → Bool) (db : List User)
        (sess : Option SessionUser) (mail password : String) (u : User),
        db.find? (fun v => v.mail == mail) = some u →
        verify password u.password = false →
        (login verify db sess mail password).1 =
          { status := 401, user := none }) ∧
    (∀ (verify : String → String → Bool) (db : List User)
        (sess : Option SessionUser) (mail password : String),
        db.find? (fun v => v.mail == mail) = none →
        (login verify db sess mail password).1 =
          { status := 401, user := none }) := by
  refine ⟨?_, ?_, ?_⟩
  · intro verify db sess mail password u hfind hver
    unfold login
    rw [hfind]
    simp [hver]
  · intro verify db sess mail password u hfind hver
    unfold login
    rw [hfind]
    simp [hver]
  · intro verify db sess mail password hfind
    unfold login
    rw [hfind]

/-- C8 witness: a one-user collection, with equality as the hash check;
the correct password yields the 200 payload of id and roles. -/
theorem login_status_and_payload_witness :
    (login (fun p h => p == h)
      [{ _id := 7, fullname := "A", mail := "a@b.c", password := "h",
         timezone := "UTC", registration_date := 0, roles := ["admin"],
         number_scan := 0, history := [] }] none "a@b.c" "h").1 =
      { status := 200, user := some (7, ["admin"]) } :=
  login_status_and_payload.1 (fun p h => p == h) _ none "a@b.c" "h"
    { _id := 7, fullname := "A", mail := "a@b.c", password := "h",
      timezone := "UTC", registration_date := 0, roles := ["admin"],
      number_scan := 0, history := [] }
    (by decide) (by decide)

/-- C9: the edit update always pins `_id` to the path parameter — the
update document spreads the body and then overwrites `_id` — so the
updated document's identifier equals the path id, and the edit never
changes any document's identifier. -/
theorem edit_preserves_id :
    (∀ (b : EditBody) (pathId : Nat) (u : User),
        (applyEdit b pathId u)._id = pathId) ∧
    (∀ (db : List User) (pathId : Nat) (b : EditBody),
        ((editInformationOfUser db pathId b).2).map (fun v => v._id) =
          db.map (fun v => v._id)) := by
  refine ⟨fun _ _ _ => rfl, ?_⟩
  intro db pathId b
  unfold editInformationOfUser
  induction db with
  | nil => rfl
  | cons v rest ih =>
    unfold updateOneById
    by_cases hid : (v._id == pathId) = true
    · rw [if_pos hid]
      simp only [List.map_cons]
      have hveq : v._id = pathId := by simpa using hid
      have hhead : (applyEdit b pathId v)._id = v._id := by
        rw [hveq]
        rfl
      rw [hhead]
    · rw [if_neg hid]
      simp only [List.map_cons]
      rw [ih]

/-- C10: the session state is written exactly on the successful path: a
200 answer writes `userId, mail, roles` of the matched user into the
session, any non-200 answer leaves the session unchanged, and a 200
answer occurs only when some user matches the mail and the password
verifies. -/
theorem login_session_iff :
    (∀ (verify : String → String → Bool) (db : List User)
        (sess : Option SessionUser) (mail password : String) (u : User),
        db.find? (fun v => v.mail == mail) = some u →
        verify password u.password = true →
        (login verify db sess mail password).2 =
          some { userId := u._id, mail := u.mail, roles := u.roles } ∧
        (login verify db sess mail password).1.status = 200) ∧
    (∀ (verify : String → String → Bool) (db : List User)
        (sess : Option SessionUser) (mail password : String),
        (login verify db sess mail password).1.status ≠ 200 →
        (login verify db sess mail password).2 = sess) ∧
    (∀ (verify : String → String → Bool) (db : List User)
        (sess : Option SessionUser) (mail password : String),
        (login verify db sess mail password).1.status = 200 →
        ∃ u, db.find? (fun v => v.mail == mail) = some u ∧
          verify password u.password = true) := by
  refine ⟨?_, ?_, ?_⟩
  · intro verify db sess mail password u hfind hver
    unfold login
    rw [hfind]
    simp [hver]
  · intro verify db sess mail password hne
    unfold login at hne ⊢
    cases hfind : db.find? (fun v => v.mail == mail) with
    | none => rfl
    | some u =>
      cases hver : verify password u.password with
      | false => simp [hver]
      | true =>
        rw [hfind] at hne
        simp [hver] at hne
  · intro verify db sess mail password h200
    unfold login at h200
    cases hfind : db.find? (fun v => v.mail == mail) with
    | none =>
      rw [hfind] at h200
      simp at h200
    | some u =>
      rw [hfind] at h200
      cases hver : verify password u.password with
      | false => simp [hver] at h200
      | true => exact ⟨u, rfl, hver⟩

/-- C10 witness: a successful login writes the session user; the same
run's status is 200. -/
theorem login_session_iff_witness :
    (login (fun p h => p == h)
      [{ _id := 7, fullname := "A", mail := "a@b.c", password := "h",
         timezone := "UTC", registration_date := 0, roles := ["admin"],
         number_scan := 0, history := [] }] none "a@b.c" "h").2 =
      some { userId := 7, mail := "a@b.c", roles := ["admin"] } ∧
    (login (fun p h => p == h)
      [{ _id := 7, fullname := "A", mail := "a@b.c", password := "h",
         timezone := "UTC", registration_date := 0, roles := ["admin"],
         number_scan := 0, history := [] }] none "a@b.c" "h").1.status = 200 :=
  login_session_iff.1 (fun p h => p == h) _ none "a@b.c" "h"
    { _id := 7, fullname := "A", mail := "a@b.c", password := "h",
      timezone := "UTC", registration_date := 0, roles := ["admin"],
      number_scan := 0, history := [] }
    (by decide) (by decide)

/-- C7 witness: a concrete user with an empty history yields the empty
merged response. -/
theorem getStats_empty_history_witness :
    getStatsAndLastProduct
      [{ _id := 7, fullname := "A", mail := "a@b.c", password := "h",
         timezone := "UTC", registration_date := 0, roles := ["admin"],
         number_scan := 0, history := [] }] [] 7 1000 = (200, []) :=
  getStats_empty_history _ [] 7
    { _id := 7, fullname := "A", mail := "a@b.c", password := "h",
      timezone := "UTC", registration_date := 0, roles := ["admin"],
      number_scan := 0, history := [] }
    1000 (by decide) rfl
